import Mathlib

/-
Verification of the safe-wallet-monitor pipeline (onchain-toolkit).
Shallow embedding of the aggregation, status-resolution and formatting code:
  - packages/safe-wallet-monitor/src/types.ts        (data model)
  - packages/safe-wallet-monitor/src/safe-api.ts     (conversion and URL helpers)
  - the main module (formatTransactionMessage, fetchAllQueuedTransactions,
    formatTransactionData, monitorSafeWalletQueue)
  - the notifications module boundary (sendNotifications invocation)
Network requests are modelled by an oracle supplying, per wallet, the raw
queued-transaction response (none = request failure, which the code turns
into an empty list), the ownership record (none = failure, which the code
turns into a null safeInfo), and the raw note field of the transaction
details endpoint (none = request failure).
-/

/-- Supported blockchain networks (common-types ChainName). -/
inductive ChainName
  | mainnet
  | arbitrum
  | optimism
  | polygon
  | gnosis
  | base
  | avalanche
  | zkevm
deriving DecidableEq

/-- The literal chain name string, as used by the TypeScript string union. -/
def ChainName.str : ChainName → String
  | .mainnet => "mainnet"
  | .arbitrum => "arbitrum"
  | .optimism => "optimism"
  | .polygon => "polygon"
  | .gnosis => "gnosis"
  | .base => "base"
  | .avalanche => "avalanche"
  | .zkevm => "zkevm"

/-- SignerInfo: address plus display handle (types.ts). -/
structure SignerInfo where
  address : String
  handle : String
deriving DecidableEq

/-- FormatOptions (types.ts): every recognized option is optional; `none`
models an omitted property. -/
structure FormatOptions where
  showConfirmedSigner : Option Bool
  showPendingSigner : Option Bool
  showStatusIcon : Option Bool
  showChainIcon : Option Bool
  showTxNote : Option Bool
deriving DecidableEq

/-- JavaScript truthiness of an optional boolean option: an omitted
(undefined) property reads as false. -/
def optTrue (o : Option Bool) : Bool := o.getD false

/-- JavaScript String.prototype.toLowerCase restricted to the per-character
case mapping (exact for the ASCII addresses and names this code handles). -/
def jsToLower (s : String) : String := ⟨s.data.map Char.toLower⟩

/-- JavaScript String.prototype.toUpperCase restricted to the per-character
case mapping. -/
def jsToUpper (s : String) : String := ⟨s.data.map Char.toUpper⟩

/-- One entry of QueuedSafeTransaction.confirmations (types.ts declares
Array of \x7b owner: string \x7d). -/
structure Confirmation where
  owner : String
deriving DecidableEq

/-- QueuedSafeTransaction (types.ts). `missingSigners` and `note` are
optional properties. -/
structure QueuedSafeTransaction where
  nonce : Nat
  signedCount : Nat
  confirmationsRequired : Nat
  confirmations : List Confirmation
  missingSigners : Option (List String)
  id : String
  note : Option String
  safe : String
deriving DecidableEq

/-- SafeInfo: owners and threshold (types.ts). -/
structure SafeInfo where
  owners : List String
  threshold : Nat
deriving DecidableEq

/-- SafeAddress: a monitored wallet (types.ts). -/
structure SafeAddress where
  address : String
  chain : ChainName
deriving DecidableEq

/-- QueuedTransactionData: per-wallet aggregation record (types.ts).
`safeInfo = none` models the null produced when the ownership lookup fails
or is skipped. -/
structure QueuedTransactionData where
  chain : ChainName
  address : String
  transactions : List QueuedSafeTransaction
  safeInfo : Option SafeInfo
  safeUrl : String
deriving DecidableEq

/-- SafeWalletMonitorResult (types.ts). The signerSummary record is
modelled as an insertion-ordered association list, mirroring JavaScript
object key order. -/
structure SafeWalletMonitorResult where
  totalTransactions : Nat
  messages : List String
  signerSummary : List (String × Nat)
  rawData : List QueuedTransactionData
deriving DecidableEq

/-- NotificationConfig (common-types): closed tagged variant. -/
inductive NotificationConfig
  | console (enabled : Bool) (colored : Option Bool)
  | telegram (enabled : Bool) (botToken : String) (chatId : String)
  | webhook (enabled : Bool) (url : String)
deriving DecidableEq

/-- The enabled flag common to every channel variant. -/
def NotificationConfig.isEnabled : NotificationConfig → Bool
  | .console e _ => e
  | .telegram e _ _ => e
  | .webhook e _ => e

/-- SafeWalletMonitorConfig (types.ts). -/
structure SafeWalletMonitorConfig where
  safes : List SafeAddress
  signers : List SignerInfo
  formatOptions : FormatOptions
  notifications : List NotificationConfig
  debug : Bool
deriving DecidableEq

/- ---------- safe-api.ts ---------- -/

/-- compareAddresses (safe-api.ts): case-insensitive address equality. -/
def compareAddresses (address1 address2 : String) : Bool :=
  jsToLower address1 == jsToLower address2

/-- shortenAddress (safe-api.ts): first 6 and last 4 characters joined by
an ellipsis; addresses under 10 characters are returned verbatim. -/
def shortenAddress (address : String) : String :=
  if address.length < 10 then address
  else address.take 6 ++ "..." ++ address.drop (address.length - 4)

/-- The type tag of a SafeClientTransaction (types.ts). -/
inductive ClientTxType
  | TRANSACTION
  | LABEL
deriving DecidableEq

/-- One entry of executionInfo.missingSigners (types.ts). -/
structure MissingSignerEntry where
  value : String
  label : Option String
  logoUri : Option String
deriving DecidableEq

/-- executionInfo of a raw client transaction (types.ts). -/
structure ClientExecutionInfo where
  nonce : Nat
  confirmationsRequired : Nat
  confirmationsSubmitted : Nat
  missingSigners : List MissingSignerEntry
deriving DecidableEq

/-- The transaction body of a raw client record; fields read by the
conversion code (types.ts). -/
structure ClientTransactionBody where
  id : String
  timestamp : Nat
  executionInfo : ClientExecutionInfo
deriving DecidableEq

/-- SafeClientTransaction (types.ts): raw record from the queued endpoint;
`transaction` is an optional property. -/
structure SafeClientTransaction where
  type : ClientTxType
  transaction : Option ClientTransactionBody
deriving DecidableEq

/-- convertToEnhancedFormat (safe-api.ts): returns none for records that
are not of type TRANSACTION or lack a transaction body; otherwise builds a
QueuedSafeTransaction whose confirmations are synthetic placeholders
`signed_i` for i below confirmationsSubmitted. -/
def convertToEnhancedFormat (clientTx : SafeClientTransaction)
    (safeAddress : String) : Option QueuedSafeTransaction :=
  if clientTx.type ≠ ClientTxType.TRANSACTION then none
  else
    match clientTx.transaction with
    | none => none
    | some tx =>
      let executionInfo := tx.executionInfo
      let missingSigners := executionInfo.missingSigners.map (fun signer => signer.value)
      let confirmations := (List.range executionInfo.confirmationsSubmitted).map
        (fun i => Confirmation.mk ("signed_" ++ toString i))
      some { nonce := executionInfo.nonce
             confirmations := confirmations
             confirmationsRequired := executionInfo.confirmationsRequired
             id := tx.id
             safe := safeAddress
             missingSigners := some missingSigners
             signedCount := executionInfo.confirmationsSubmitted
             note := none }

/-- The successful branch of fetchQueuedTransactions (safe-api.ts): keep
only TRANSACTION records and convert them, dropping null conversions. -/
def processQueuedResults (results : List SafeClientTransaction)
    (safeAddress : String) : List QueuedSafeTransaction :=
  (results.filter (fun item => item.type == ClientTxType.TRANSACTION)).filterMap
    (fun item => convertToEnhancedFormat item safeAddress)

/-- fetchQueuedTransactions (safe-api.ts): a failed request (none) is
caught and surfaced as an empty list. -/
def fetchQueuedTransactions (response : Option (List SafeClientTransaction))
    (safeAddress : String) : List QueuedSafeTransaction :=
  match response with
  | some results => processQueuedResults results safeAddress
  | none => []

/-- fetchTransactionDetails (safe-api.ts): a failed request (outer none)
is caught and returned as null; an empty note string is turned into an
absent note by `response.data.note || undefined`. -/
def fetchTransactionDetails (rawNote : Option String) : Option (Option String) :=
  match rawNote with
  | none => none
  | some raw => some (if raw = "" then none else some raw)

/-- generateSafeUrl (safe-api.ts): deterministic wallet URL; mainnet is
mapped to the eth ticker. -/
def generateSafeUrl (safeAddress : String) (chain : ChainName) : String :=
  let chainPre := if chain = ChainName.mainnet then "eth" else ChainName.str chain
  "https://app.safe.global/home?safe=" ++ chainPre ++ ":" ++ safeAddress

/- ---------- main module ---------- -/

/-- getSignerHandle (main module): alias lookup by case-insensitive
address match, with an optional display marker before the handle, falling
back to the shortened address. -/
def getSignerHandle (address : String) (signers : List SignerInfo)
    (pfx : Option String) : String :=
  match signers.find? (fun s => compareAddresses s.address address) with
  | some signer => pfx.getD "" ++ signer.handle
  | none => shortenAddress address

/-- The nearly-ready cutoff: the exact ceiling of 7 * required / 10. The
source computes Math.ceil(required * 0.7) in IEEE doubles, which equals
this exact rational ceiling for every required below roughly 2^50 (checked
exhaustively far beyond any representable multisig threshold). -/
def ceil07 (required : Nat) : Nat := (7 * required + 9) / 10

/-- getStatusIcon (main module): readiness tier icon from the confirmed
count and the required threshold. -/
def getStatusIcon (confirmed required : Nat) : String :=
  if confirmed ≥ required then "🏅"
  else if confirmed ≥ ceil07 required then "📝"
  else "⚠️"

/-- getChainIcon (main module): per-network emoji icon. -/
def getChainIcon (chain : ChainName) : String :=
  match chain with
  | .mainnet => "⚫"
  | .arbitrum => "🔵"
  | .optimism => "🔴"
  | .polygon => "🟣"
  | .gnosis => "🟢"
  | .base => "⚪"
  | .avalanche => "🔺"
  | .zkevm => "🟪"

/-- The signed / not-signed partition computed inside
formatTransactionMessage (main module, lines 94-105): an explicit
non-empty missingSigners list is authoritative; otherwise both sets are
derived from the confirmations by case-insensitive membership. -/
def signerPartition (transaction : QueuedSafeTransaction)
    (safeOwners : List String) : List String × List String :=
  if (transaction.missingSigners.getD []).length > 0 then
    let ms := transaction.missingSigners.getD []
    let missingSignersLower := ms.map jsToLower
    (safeOwners.filter (fun owner => !missingSignersLower.contains (jsToLower owner)), ms)
  else
    let signedAddresses := transaction.confirmations.map (fun c => jsToLower c.owner)
    (safeOwners.filter (fun owner => signedAddresses.contains (jsToLower owner)),
     safeOwners.filter (fun owner => !signedAddresses.contains (jsToLower owner)))

/-- formatTransactionMessage (main module): renders one transaction block.
Follows the source control flow: header line, optional note line, then
optional signed / not-signed lines when owners are known. -/
def formatTransactionMessage (transaction : QueuedSafeTransaction)
    (chain : ChainName) (safeOwners : List String)
    (signers : List SignerInfo) (options : FormatOptions) : String :=
  let confirmed := transaction.signedCount
  let required := transaction.confirmationsRequired
  let statusIcon := if optTrue options.showStatusIcon then getStatusIcon confirmed required else ""
  let chainIcon := if optTrue options.showChainIcon then getChainIcon chain else ""
  let chainName := jsToUpper (ChainName.str chain)
  let message := chainIcon ++ " " ++ chainName ++ " - Tx " ++ toString transaction.nonce
    ++ " " ++ statusIcon ++ " " ++ toString confirmed ++ "/" ++ toString required ++ "\n"
  let message := message ++
    (if optTrue options.showTxNote then
      match transaction.note with
      | some n => if n = "" then "" else "    📝 Note: " ++ n ++ "\n"
      | none => ""
    else "")
  if (optTrue options.showConfirmedSigner || optTrue options.showPendingSigner)
      && safeOwners.length > 0 then
    let p := signerPartition transaction safeOwners
    let signerLine := fun (signerList : List String) (label : String) (icon : String) =>
      if signerList.length > 0 then
        "    " ++ icon ++ " " ++ label ++ ": "
          ++ String.intercalate ", " (signerList.map (fun addr => getSignerHandle addr signers none))
          ++ "\n"
      else ""
    let message := message ++
      (if optTrue options.showConfirmedSigner then signerLine p.1 "Signed" "✔️ " else "")
    message ++
      (if optTrue options.showPendingSigner then signerLine p.2 "Not Signed" "⏳" else "")
  else message

/-- The network oracle: per-wallet raw responses of the three endpoints.
none models a failed request. -/
structure NetworkOracle where
  queuedResponse : SafeAddress → Option (List SafeClientTransaction)
  safeInfoResult : SafeAddress → Option SafeInfo
  txDetailsNote : String → ChainName → Option String

/-- The note-enrichment step of fetchAllQueuedTransactions: when
showTxNote is set, a truthy note from the details endpoint is attached to
the transaction; failures and empty notes leave it unchanged. -/
def applyNote (oracle : NetworkOracle) (chain : ChainName)
    (options : FormatOptions) (tx : QueuedSafeTransaction) : QueuedSafeTransaction :=
  if optTrue options.showTxNote then
    match fetchTransactionDetails (oracle.txDetailsNote tx.id chain) with
    | some (some n) => if n = "" then tx else { tx with note := some n }
    | some none => tx
    | none => tx
  else tx

/-- groupSafesByChain: the reduce in fetchAllQueuedTransactions grouping
wallet addresses by chain, preserving first-encounter chain order and
insertion order within a chain (JavaScript object key order). -/
def groupSafesByChain (safes : List SafeAddress) : List (ChainName × List String) :=
  safes.foldl (fun acc safe =>
    if acc.any (fun p => p.1 == safe.chain) then
      acc.map (fun p => if p.1 == safe.chain then (p.1, p.2 ++ [safe.address]) else p)
    else acc ++ [(safe.chain, [safe.address])]) []

/-- The per-wallet loop body of fetchAllQueuedTransactions: fetch the
queued list (failure already surfaced as empty) and, when signer display
is requested, the ownership record; skip the wallet when the queued list
is empty; otherwise enrich notes and append the aggregation record. -/
def processSafe (oracle : NetworkOracle) (options : FormatOptions)
    (chainKey : ChainName) (results : List QueuedTransactionData)
    (address : String) : List QueuedTransactionData :=
  let transactions := fetchQueuedTransactions
    (oracle.queuedResponse { address := address, chain := chainKey }) address
  let safeInfo := if optTrue options.showConfirmedSigner || optTrue options.showPendingSigner
    then oracle.safeInfoResult { address := address, chain := chainKey } else none
  if transactions.length = 0 then results
  else
    let transactions := transactions.map (applyNote oracle chainKey options)
    results ++ [{ chain := chainKey
                  address := address
                  transactions := transactions
                  safeInfo := safeInfo
                  safeUrl := generateSafeUrl address chainKey }]

/-- fetchAllQueuedTransactions (main module): sequential per-chain,
per-wallet aggregation. -/
def fetchAllQueuedTransactions (oracle : NetworkOracle)
    (safes : List SafeAddress) (options : FormatOptions) : List QueuedTransactionData :=
  (groupSafesByChain safes).foldl
    (fun results p => p.2.foldl (processSafe oracle options p.1) results) []

/-- One increment of the signer summary object: bump the count stored
under the key, or append the key with count 1 (JavaScript object
insertion-order semantics). -/
def bumpSummary (summary : List (String × Nat)) (key : String) : List (String × Nat) :=
  if summary.any (fun p => p.1 = key) then
    summary.map (fun p => if p.1 = key then (p.1, p.2 + 1) else p)
  else summary ++ [(key, 1)]

/-- The per-transaction summary step of formatTransactionData: for a
present missingSigners list, bump the count of every case-normalized
address. -/
def txSummary (summary : List (String × Nat))
    (tx : QueuedSafeTransaction) : List (String × Nat) :=
  match tx.missingSigners with
  | some ms => ms.foldl (fun s addr => bumpSummary s (jsToLower addr)) summary
  | none => summary

/-- formatTransactionData (main module): per-wallet transaction blocks
followed by a wallet URL line, a global signer tally, summary lines when
the tally is non-empty, and a trailing blank block. -/
def formatTransactionData (data : List QueuedTransactionData)
    (signers : List SignerInfo) (options : FormatOptions) :
    List String × List (String × Nat) :=
  let step := fun (acc : List String × List (String × Nat)) (d : QueuedTransactionData) =>
    let transactionMessages := d.transactions.map (fun tx =>
      formatTransactionMessage tx d.chain
        (match d.safeInfo with | some info => info.owners | none => [])
        signers options)
    (acc.1 ++ transactionMessages ++ ["🔗 Safe URL: " ++ d.safeUrl ++ "\n"],
     d.transactions.foldl txSummary acc.2)
  let r := data.foldl step ([], [])
  let signerSummary := r.2
  let messages := if signerSummary.length > 0 then
      r.1 ++ signerSummary.map (fun p =>
        "   • " ++ getSignerHandle p.1 signers (some "@") ++ ": " ++ toString p.2
          ++ " signature" ++ (if p.2 > 1 then "s" else "") ++ " needed")
    else r.1
  (messages ++ ["\n\n"], signerSummary)

/-- The run output: the MonitorResult plus the dispatch observation;
`dispatched = some m` records that sendNotifications was invoked with the
joined message m. -/
structure MonitorOutput where
  result : SafeWalletMonitorResult
  dispatched : Option String
deriving DecidableEq

/-- The body of monitorSafeWalletQueue after configuration validation. -/
def runMonitor (oracle : NetworkOracle) (config : SafeWalletMonitorConfig) : MonitorOutput :=
  let transactionData := fetchAllQueuedTransactions oracle config.safes config.formatOptions
  let totalTransactions := transactionData.foldl (fun sum d => sum + d.transactions.length) 0
  let fr := formatTransactionData transactionData config.signers config.formatOptions
  let finalMessage := String.intercalate "\n" fr.1
  let dispatched := if totalTransactions > 0 && config.notifications.length > 0
    then some finalMessage else none
  { result := { totalTransactions := totalTransactions
                messages := fr.1
                signerSummary := fr.2
                rawData := transactionData }
    dispatched := dispatched }

/-- monitorSafeWalletQueue (main module): fatal configuration error when
the wallet list is empty, before any oracle access; otherwise one
fetch-format-notify cycle. -/
def monitorSafeWalletQueue (oracle : NetworkOracle)
    (config : SafeWalletMonitorConfig) : Except String MonitorOutput :=
  if config.safes.length = 0 then
    Except.error "No safes provided in configuration"
  else
    Except.ok (runMonitor oracle config)

/- ---------- concrete fixtures ---------- -/

/-- A fully omitted options object. -/
def emptyOptions : FormatOptions := ⟨none, none, none, none, none⟩

/-- The defaults documented in types.ts: showConfirmedSigner false,
showPendingSigner true, showStatusIcon false, showChainIcon true,
showTxNote true. -/
def docDefaultOptions : FormatOptions := ⟨some false, some true, some false, some true, some true⟩

/-- A concrete queued transaction with a note and one missing signer. -/
def tx4 : QueuedSafeTransaction :=
  { nonce := 7, signedCount := 1, confirmationsRequired := 2,
    confirmations := [⟨"signed_0"⟩], missingSigners := some ["0xBbB"],
    id := "t4", note := some "pay", safe := "0xS" }

/-- A concrete raw client record of type TRANSACTION. -/
def ctxA : SafeClientTransaction :=
  ⟨ClientTxType.TRANSACTION, some ⟨"id1", 0, ⟨5, 2, 1, [⟨"0xB", none, none⟩]⟩⟩⟩

/-- An oracle: one queued record per wallet, failing ownership lookups,
failing note lookups. -/
def oracleA : NetworkOracle :=
  { queuedResponse := fun _ => some [ctxA], safeInfoResult := fun _ => none,
    txDetailsNote := fun _ _ => none }

/-- A second oracle with different answers everywhere. -/
def oracleB : NetworkOracle :=
  { queuedResponse := fun _ => none,
    safeInfoResult := fun _ => some ⟨["0xA"], 1⟩,
    txDetailsNote := fun _ _ => some "n" }

/-- A concrete monitored wallet. -/
def w0 : SafeAddress := ⟨"0xS", ChainName.mainnet⟩

/-- A configuration whose only channel is disabled. -/
def cfg5 : SafeWalletMonitorConfig :=
  { safes := [w0], signers := [], formatOptions := emptyOptions,
    notifications := [NotificationConfig.console false none], debug := false }

/-- A configuration with an empty wallet list. -/
def cfgE : SafeWalletMonitorConfig :=
  { safes := [], signers := [], formatOptions := docDefaultOptions,
    notifications := [NotificationConfig.console true none], debug := false }

/-- Aggregated data with one transaction listing the same missing signer
twice in different casings. -/
def D0 : List QueuedTransactionData :=
  [⟨ChainName.mainnet, "0xS",
    [{ nonce := 1, signedCount := 0, confirmationsRequired := 2, confirmations := [],
       missingSigners := some ["0xA", "0xa"], id := "t", note := none, safe := "0xS" }],
    none, "u"⟩]

/- ---------- helper lemmas ---------- -/

/-- The nearly-ready cutoff compared through the exact rational bound. -/
theorem ceil07_le_iff (C T : Nat) : (ceil07 T ≤ C) ↔ ((7 * T : ℚ) / 10 ≤ (C : ℚ)) := by
  rw [div_le_iff₀ (by norm_num : (0:ℚ) < 10)]
  have h2 : ((7 * T : ℚ) ≤ (C : ℚ) * 10) ↔ ((7 * T : Nat) ≤ C * 10) := by
    exact_mod_cast Iff.rfl
  rw [h2, ceil07]
  omega


/-- A transaction with no missingSigners list and one confirmation, for
the C9 witness. -/
def tx9 : QueuedSafeTransaction :=
  { nonce := 1, signedCount := 1, confirmationsRequired := 2,
    confirmations := [⟨"0xaaa"⟩], missingSigners := none,
    id := "t9", note := none, safe := "0xS" }

/- ---------- claims ---------- -/

/-- C1: the readiness tier depends only on signedCount and
confirmationsRequired: the ready icon appears exactly when signedCount
reaches confirmationsRequired, the nearly-ready icon exactly when
signedCount is at least the exact rational ceiling of 0.7 times the
threshold but below the threshold, and the needs-attention icon exactly
otherwise (so for confirmationsRequired = 3 a signedCount of 2 is below
21/10 rounded up, hence needs-attention). -/
theorem c1_readiness_tier (confirmed required : Nat) :
    (getStatusIcon confirmed required = "🏅" ↔ required ≤ confirmed)
  ∧ (getStatusIcon confirmed required = "📝" ↔
      ((7 * required : ℚ) / 10 ≤ (confirmed : ℚ) ∧ confirmed < required))
  ∧ (getStatusIcon confirmed required = "⚠️" ↔
      (confirmed : ℚ) < (7 * required : ℚ) / 10) := by
  have hs1 : ("🏅" : String) ≠ "📝" := by decide
  have hs2 : ("🏅" : String) ≠ "⚠️" := by decide
  have hs3 : ("📝" : String) ≠ "⚠️" := by decide
  have hceilT : ceil07 required ≤ required := by unfold ceil07; omega
  unfold getStatusIcon
  split_ifs with h1 h2
  · have hq : (7 * required : ℚ) / 10 ≤ (confirmed : ℚ) :=
      (ceil07_le_iff confirmed required).mp (le_trans hceilT h1)
    refine ⟨iff_of_true rfl h1, ?_, ?_⟩
    · exact iff_of_false hs1 (fun h => absurd h.2 (by omega))
    · exact iff_of_false hs2 (not_lt.mpr hq)
  · have hq : (7 * required : ℚ) / 10 ≤ (confirmed : ℚ) :=
      (ceil07_le_iff confirmed required).mp h2
    refine ⟨iff_of_false (Ne.symm hs1) h1, ?_, ?_⟩
    · exact iff_of_true rfl ⟨hq, not_le.mp h1⟩
    · exact iff_of_false hs3 (not_lt.mpr hq)
  · have hq : (confirmed : ℚ) < (7 * required : ℚ) / 10 :=
      not_le.mp (fun h => h2 ((ceil07_le_iff confirmed required).mpr h))
    refine ⟨iff_of_false (Ne.symm hs2) h1, ?_, ?_⟩
    · exact iff_of_false (Ne.symm hs3) (fun h => absurd h.1 (not_le.mpr hq))
    · exact iff_of_true rfl hq

/-- C2: when missingSigners is present and non-empty it is authoritative:
the unsigned side of the partition equals it exactly, the signed side is
the owners whose lowercase form is not in the lowercased missingSigners
list, and the partition does not depend on the confirmations sequence. -/
theorem c2_missing_signers_authoritative (tx : QueuedSafeTransaction)
    (safeOwners ms : List String) (hms : tx.missingSigners = some ms) (hne : ms ≠ []) :
    (signerPartition tx safeOwners).2 = ms
  ∧ (signerPartition tx safeOwners).1
      = safeOwners.filter (fun owner => !((ms.map jsToLower).contains (jsToLower owner)))
  ∧ ∀ confs, signerPartition { tx with confirmations := confs } safeOwners
      = signerPartition tx safeOwners := by
  have hlen : 0 < ms.length := List.length_pos.mpr hne
  refine ⟨?_, ?_, ?_⟩ <;> simp [signerPartition, hms, hlen]

/-- C2 witness: the partition of the concrete fixture. -/
theorem c2_witness :
    (signerPartition tx4 ["0xAaA", "0xBbB"]).2 = ["0xBbB"] :=
  (c2_missing_signers_authoritative tx4 ["0xAaA", "0xBbB"] ["0xBbB"] rfl (by decide)).1

/-- C9: when missingSigners is absent or empty and owners are known, the
signed and unsigned sets derived from the confirmations form a partition
of the owner list: union equal to the owner set, intersection empty. -/
theorem c9_confirmations_partition (tx : QueuedSafeTransaction) (safeOwners : List String)
    (hms : tx.missingSigners = none ∨ tx.missingSigners = some []) :
    (∀ x, x ∈ safeOwners ↔
        (x ∈ (signerPartition tx safeOwners).1 ∨ x ∈ (signerPartition tx safeOwners).2))
  ∧ (∀ x, ¬(x ∈ (signerPartition tx safeOwners).1 ∧ x ∈ (signerPartition tx safeOwners).2)) := by
  have hlen : ¬(0 < (tx.missingSigners.getD []).length) := by
    rcases hms with h | h <;> simp [h]
  simp only [signerPartition, if_neg hlen]
  constructor
  · intro x
    constructor
    · intro hx
      cases hcb : (tx.confirmations.map (fun c => jsToLower c.owner)).contains (jsToLower x) with
      | true => exact Or.inl (List.mem_filter.mpr ⟨hx, hcb⟩)
      | false => exact Or.inr (List.mem_filter.mpr ⟨hx, by rw [Bool.not_eq_true']; exact hcb⟩)
    · rintro (hx | hx) <;> exact (List.mem_filter.mp hx).1
  · rintro x ⟨h1, h2⟩
    have b1 := (List.mem_filter.mp h1).2
    have b2 := (List.mem_filter.mp h2).2
    rw [Bool.not_eq_true'] at b2
    rw [b2] at b1
    exact Bool.false_ne_true b1

/-- C9 witness: partition of two owners with one confirmation. -/
theorem c9_witness :
    "0xAaA" ∈ ["0xAaA", "0xBbB"] ↔
      ("0xAaA" ∈ (signerPartition tx9 ["0xAaA", "0xBbB"]).1
      ∨ "0xAaA" ∈ (signerPartition tx9 ["0xAaA", "0xBbB"]).2) :=
  (c9_confirmations_partition tx9 ["0xAaA", "0xBbB"] (Or.inl rfl)).1 "0xAaA"

/-- C4: evaluation of the formatter at a fully omitted options object and
at the documented defaults. With every option omitted the code renders
only the bare header: no chain icon, no note line, no pending-signer
line, although types.ts documents showChainIcon, showTxNote and
showPendingSigner as defaulting to true (the second equation shows the
output those documented defaults would produce). -/
theorem c4_omitted_options_read_as_false :
    formatTransactionMessage tx4 ChainName.mainnet ["0xAaA", "0xBbB"] [] emptyOptions
      = " MAINNET - Tx 7  1/2\n"
  ∧ formatTransactionMessage tx4 ChainName.mainnet ["0xAaA", "0xBbB"] [] docDefaultOptions
      = "⚫ MAINNET - Tx 7  1/2\n    📝 Note: pay\n    ⏳ Not Signed: 0xBbB\n" := by
  constructor <;> decide

/-- The converted form of the ctxA fixture. -/
def qtxA : QueuedSafeTransaction :=
  { nonce := 5, signedCount := 1, confirmationsRequired := 2,
    confirmations := [⟨"signed_0"⟩], missingSigners := some ["0xB"],
    id := "id1", note := none, safe := "0xS" }

/-- Generic preservation of an invariant along a left fold. -/
theorem foldl_preserves {α β : Type} (P : β → Prop) (f : β → α → β)
    (hf : ∀ b a, P b → P (f b a)) : ∀ (l : List α) (b : β), P b → P (List.foldl f b l) := by
  intro l
  induction l with
  | nil => intro b hb; exact hb
  | cons a l ih => intro b hb; exact ih (f b a) (hf b a hb)

/-- C10: a raw record of type TRANSACTION converts to a transaction whose
signedCount is the submitted-confirmation count of the source, whose
confirmations sequence has exactly that length and consists of the
synthetic placeholders signed_i, and whose missingSigners list is always
present; records of any other type (or without a body) map to none, and
the queued-endpoint processing keeps exactly the non-null conversions. -/
theorem c10_converted_transaction_shape (clientTx : SafeClientTransaction)
    (safeAddress : String) :
    (∀ tx, convertToEnhancedFormat clientTx safeAddress = some tx →
      ∃ body, clientTx.transaction = some body
        ∧ clientTx.type = ClientTxType.TRANSACTION
        ∧ tx.signedCount = body.executionInfo.confirmationsSubmitted
        ∧ tx.confirmations.length = tx.signedCount
        ∧ tx.confirmations = (List.range body.executionInfo.confirmationsSubmitted).map
            (fun i => Confirmation.mk ("signed_" ++ toString i))
        ∧ tx.missingSigners
            = some (body.executionInfo.missingSigners.map (fun s => s.value)))
  ∧ (convertToEnhancedFormat clientTx safeAddress = none ↔
      (clientTx.type ≠ ClientTxType.TRANSACTION ∨ clientTx.transaction = none))
  ∧ (∀ results, processQueuedResults results safeAddress
      = results.filterMap (fun item => convertToEnhancedFormat item safeAddress)) := by
  refine ⟨?_, ?_, ?_⟩
  · intro tx htx
    unfold convertToEnhancedFormat at htx
    by_cases ht : clientTx.type = ClientTxType.TRANSACTION
    · rw [if_neg (by simp [ht])] at htx
      cases hb : clientTx.transaction with
      | none => rw [hb] at htx; exact absurd htx (by simp)
      | some body =>
        rw [hb] at htx
        simp only [Option.some.injEq] at htx
        refine ⟨body, rfl, ht, ?_, ?_, ?_, ?_⟩ <;> simp [← htx]
    · rw [if_pos ht] at htx
      exact absurd htx (by simp)
  · constructor
    · intro hnone
      by_cases ht : clientTx.type = ClientTxType.TRANSACTION
      · right
        unfold convertToEnhancedFormat at hnone
        rw [if_neg (by simp [ht])] at hnone
        cases hb : clientTx.transaction with
        | none => rfl
        | some body => rw [hb] at hnone; exact absurd hnone (by simp)
      · exact Or.inl ht
    · intro h
      unfold convertToEnhancedFormat
      rcases h with ht | hb
      · rw [if_pos ht]
      · by_cases ht : clientTx.type = ClientTxType.TRANSACTION
        · rw [if_neg (by simp [ht]), hb]
        · rw [if_pos ht]
  · intro results
    simp only [processQueuedResults]
    induction results with
    | nil => rfl
    | cons item rest ih =>
      by_cases ht : item.type = ClientTxType.TRANSACTION
      · have hbeq : (item.type == ClientTxType.TRANSACTION) = true := by simp [ht]
        rw [List.filter_cons, if_pos hbeq, List.filterMap_cons, List.filterMap_cons]
        cases hfi : convertToEnhancedFormat item safeAddress <;> simp [ih]
      · have hbeq : ¬((item.type == ClientTxType.TRANSACTION) = true) := by simp [ht]
        have hnone : convertToEnhancedFormat item safeAddress = none := by
          unfold convertToEnhancedFormat
          rw [if_pos ht]
        rw [List.filter_cons, if_neg hbeq, List.filterMap_cons, hnone, ih]

/-- C10 witness: the conversion of the concrete TRANSACTION record. -/
theorem c10_witness :
    ∃ body, ctxA.transaction = some body
      ∧ ctxA.type = ClientTxType.TRANSACTION
      ∧ qtxA.signedCount = body.executionInfo.confirmationsSubmitted
      ∧ qtxA.confirmations.length = qtxA.signedCount
      ∧ qtxA.confirmations = (List.range body.executionInfo.confirmationsSubmitted).map
          (fun i => Confirmation.mk ("signed_" ++ toString i))
      ∧ qtxA.missingSigners
          = some (body.executionInfo.missingSigners.map (fun s => s.value)) :=
  (c10_converted_transaction_shape ctxA "0xS").1 qtxA (by decide)

/-- C6: every aggregation record produced by fetchAllQueuedTransactions
has a non-empty transactions sequence: wallets whose queued fetch yields
nothing (including failures surfaced as an empty list) are skipped. -/
theorem c6_no_empty_wallet_entries (oracle : NetworkOracle) (safes : List SafeAddress)
    (options : FormatOptions) (d : QueuedTransactionData)
    (hd : d ∈ fetchAllQueuedTransactions oracle safes options) :
    d.transactions ≠ [] := by
  have hstep : ∀ (ck : ChainName) (results : List QueuedTransactionData) (address : String),
      (∀ x ∈ results, x.transactions ≠ []) →
      (∀ x ∈ processSafe oracle options ck results address, x.transactions ≠ []) := by
    intro ck results address hres x hx
    simp only [processSafe] at hx
    split at hx
    · exact hres x hx
    · rename_i hz
      rcases List.mem_append.mp hx with hmem | hmem
      · exact hres x hmem
      · rw [List.mem_singleton] at hmem
        subst hmem
        intro hemp
        simp only at hemp
        exact hz (by rw [List.length_eq_zero]; exact List.map_eq_nil_iff.mp hemp)
  have houter : ∀ x ∈ fetchAllQueuedTransactions oracle safes options, x.transactions ≠ [] := by
    unfold fetchAllQueuedTransactions
    refine foldl_preserves
      (fun results : List QueuedTransactionData => ∀ x ∈ results, x.transactions ≠ [])
      _ ?_ _ [] ?_
    · intro results p hres
      exact foldl_preserves _ _ (fun b a hb => hstep p.1 b a hb) p.2 results hres
    · intro x hx
      exact absurd hx (List.not_mem_nil x)
  exact houter d hd

/-- C6 witness: the single aggregation record of the concrete run has a
non-empty transactions list. -/
theorem c6_witness :
    (⟨ChainName.mainnet, "0xS", [qtxA], none,
      "https://app.safe.global/home?safe=eth:0xS"⟩ : QueuedTransactionData).transactions ≠ [] :=
  c6_no_empty_wallet_entries oracleA [w0] emptyOptions _ (by decide)

/-- C7: when the ownership lookup for a wallet fails but its queued fetch
yields a non-empty list, the wallet still appears in the aggregation with
safeInfo absent and its transactions retained (modulo note enrichment);
and with no known owners the formatter renders exactly the header line
plus the optional note line, omitting the signed and unsigned lines while
the status icon is still governed by showStatusIcon. -/
theorem c7_ownership_failure_retains_wallet (oracle : NetworkOracle) (w : SafeAddress)
    (options : FormatOptions) (signers : List SignerInfo)
    (hinfo : oracle.safeInfoResult w = none)
    (hne : fetchQueuedTransactions (oracle.queuedResponse w) w.address ≠ []) :
    fetchAllQueuedTransactions oracle [w] options
      = [{ chain := w.chain, address := w.address,
           transactions := (fetchQueuedTransactions (oracle.queuedResponse w) w.address).map
             (applyNote oracle w.chain options),
           safeInfo := none,
           safeUrl := generateSafeUrl w.address w.chain }]
  ∧ ∀ tx, formatTransactionMessage tx w.chain [] signers options
      = (if optTrue options.showChainIcon then getChainIcon w.chain else "") ++ " "
        ++ jsToUpper (ChainName.str w.chain) ++ " - Tx " ++ toString tx.nonce ++ " "
        ++ (if optTrue options.showStatusIcon then
              getStatusIcon tx.signedCount tx.confirmationsRequired else "")
        ++ " " ++ toString tx.signedCount ++ "/" ++ toString tx.confirmationsRequired ++ "\n"
        ++ (if optTrue options.showTxNote then
              match tx.note with
              | some n => if n = "" then "" else "    📝 Note: " ++ n ++ "\n"
              | none => ""
            else "") := by
  constructor
  · have hg : groupSafesByChain [w] = [(w.chain, [w.address])] := rfl
    unfold fetchAllQueuedTransactions
    rw [hg]
    simp only [List.foldl_cons, List.foldl_nil]
    simp only [processSafe]
    have hw : ({ address := w.address, chain := w.chain } : SafeAddress) = w := rfl
    rw [hw, hinfo, ite_self]
    rw [if_neg (fun hz => hne (List.length_eq_zero.mp hz)), List.nil_append]
  · intro tx
    simp only [formatTransactionMessage, List.length_nil]
    norm_num

/-- C7 witness: the concrete run with a failing ownership lookup. -/
theorem c7_witness :
    fetchAllQueuedTransactions oracleA [w0] docDefaultOptions
      = [{ chain := ChainName.mainnet, address := "0xS",
           transactions := [qtxA], safeInfo := none,
           safeUrl := "https://app.safe.global/home?safe=eth:0xS" }] :=
  (c7_ownership_failure_retains_wallet oracleA w0 docDefaultOptions [] rfl (by decide)).1

/-- C8: the run fails with the fatal configuration error exactly when the
wallet list is empty; in that case the outcome does not depend on the
network oracle at all (no network activity); for every non-empty wallet
list the run returns a result, and an all-empty queue yields a successful
zero-transaction result. -/
theorem c8_empty_config_only_fatal_error (config : SafeWalletMonitorConfig) :
    (∀ oracle, (∃ e, monitorSafeWalletQueue oracle config = Except.error e) ↔ config.safes = [])
  ∧ (config.safes = [] → ∀ o1 o2, monitorSafeWalletQueue o1 config = monitorSafeWalletQueue o2 config)
  ∧ (∀ oracle, config.safes ≠ [] → ∃ out, monitorSafeWalletQueue oracle config = Except.ok out)
  ∧ (∀ oracle, config.safes ≠ [] → (∀ w, oracle.queuedResponse w = some []) →
      ∃ out, monitorSafeWalletQueue oracle config = Except.ok out
        ∧ out.result.totalTransactions = 0) := by
  have hfetch0 : ∀ (oracle : NetworkOracle) (options : FormatOptions),
      (∀ w, oracle.queuedResponse w = some []) →
      fetchAllQueuedTransactions oracle config.safes options = [] := by
    intro oracle options hq
    unfold fetchAllQueuedTransactions
    refine foldl_preserves (fun r : List QueuedTransactionData => r = []) _ ?_ _ [] rfl
    intro r p hr
    refine foldl_preserves (fun r2 : List QueuedTransactionData => r2 = []) _ ?_ p.2 r hr
    intro r2 a hr2
    simp only [processSafe, hq, fetchQueuedTransactions, processQueuedResults,
      List.filter_nil, List.filterMap_nil, List.length_nil]
    simp [hr2]
  refine ⟨?_, ?_, ?_, ?_⟩
  · intro oracle
    constructor
    · rintro ⟨e, he⟩
      by_cases h : config.safes.length = 0
      · exact List.length_eq_zero.mp h
      · rw [monitorSafeWalletQueue, if_neg h] at he
        exact absurd he (by simp)
    · intro h
      refine ⟨"No safes provided in configuration", ?_⟩
      rw [monitorSafeWalletQueue, if_pos (by rw [h]; rfl)]
  · intro h o1 o2
    rw [monitorSafeWalletQueue, monitorSafeWalletQueue,
      if_pos (by rw [h]; rfl), if_pos (by rw [h]; rfl)]
  · intro oracle h
    have hlen : ¬config.safes.length = 0 :=
      fun hz => h (List.length_eq_zero.mp hz)
    exact ⟨runMonitor oracle config, by rw [monitorSafeWalletQueue, if_neg hlen]⟩
  · intro oracle h hq
    have hlen : ¬config.safes.length = 0 :=
      fun hz => h (List.length_eq_zero.mp hz)
    refine ⟨runMonitor oracle config, by rw [monitorSafeWalletQueue, if_neg hlen], ?_⟩
    simp only [runMonitor, hfetch0 oracle config.formatOptions hq, List.foldl_nil]

/-- C8 witness: with the empty configuration, two different oracles give
the same outcome. -/
theorem c8_witness :
    monitorSafeWalletQueue oracleA cfgE = monitorSafeWalletQueue oracleB cfgE :=
  (c8_empty_config_only_fatal_error cfgE).2.1 rfl oracleA oracleB

/-- C5 counterexample: with one queued transaction and a single disabled
channel, the run still invokes the dispatcher (dispatched is some) even
though no channel in the list is enabled, contradicting the claim that no
dispatch call is made when all channels are disabled. -/
theorem c5_counterexample :
    (monitorSafeWalletQueue oracleA cfg5).toOption.map
      (fun out => (out.result.totalTransactions, out.dispatched.isSome,
        cfg5.notifications.any (fun c => c.isEnabled)))
      = some (1, true, false) := by decide

/-- C5 amended: the dispatcher is invoked with the joined message exactly
when totalTransactions is positive and the supplied channel list is
non-empty; the enabled flags of the channels are not consulted by the
core. -/
theorem c5_dispatch_condition (oracle : NetworkOracle) (config : SafeWalletMonitorConfig) :
    (runMonitor oracle config).dispatched
      = if 0 < (runMonitor oracle config).result.totalTransactions
          ∧ config.notifications ≠ []
        then some (String.intercalate "\n" (runMonitor oracle config).result.messages)
        else none := by
  by_cases h1 : 0 < (fetchAllQueuedTransactions oracle config.safes
      config.formatOptions).foldl (fun sum d => sum + d.transactions.length) 0
  · by_cases h2 : config.notifications = []
    · simp [runMonitor, h1, h2]
    · simp [runMonitor, h1, h2, List.length_pos.mpr h2]
  · simp [runMonitor, h1]

/- ---------- signer summary counting ---------- -/

/-- Property access on the summary object: the count stored under a key,
if present. -/
def summaryLookup (m : List (String × Nat)) (k : String) : Option Nat :=
  match m with
  | [] => none
  | p :: rest => if p.1 = k then some p.2 else summaryLookup rest k

/-- Occurrences of an (already lowercased) address inside one
missingSigners list, counted case-insensitively. -/
def occList (l : List String) (addr : String) : Nat :=
  l.countP (fun s => jsToLower s = addr)

/-- Occurrences contributed by one transaction. -/
def occTx (tx : QueuedSafeTransaction) (addr : String) : Nat :=
  occList (tx.missingSigners.getD []) addr

/-- Total occurrences of an address across the missingSigners lists of
all aggregated transactions. -/
def occCountMissing (data : List QueuedTransactionData) (addr : String) : Nat :=
  (data.map (fun d => (d.transactions.map (fun tx => occTx tx addr)).sum)).sum

/-- Number of transactions, across all wallets, whose missingSigners list
contains the address case-insensitively (the quantity the claim names). -/
def txCountMissing (data : List QueuedTransactionData) (addr : String) : Nat :=
  (data.map (fun d => d.transactions.countP
    (fun tx => (tx.missingSigners.getD []).any (fun s => jsToLower s = addr)))).sum

theorem summaryLookup_append (a : String) (m1 m2 : List (String × Nat)) :
    summaryLookup (m1 ++ m2) a
      = match summaryLookup m1 a with
        | some v => some v
        | none => summaryLookup m2 a := by
  induction m1 with
  | nil => rfl
  | cons p m ih =>
    by_cases h : p.1 = a
    · simp [summaryLookup, h]
    · simp [summaryLookup, h, ih]

theorem summaryLookup_map_inc (k : String) (m : List (String × Nat)) :
    summaryLookup (m.map (fun p => if p.1 = k then (p.1, p.2 + 1) else p)) k
      = (summaryLookup m k).map (fun v => v + 1) := by
  induction m with
  | nil => rfl
  | cons p m ih =>
    by_cases h : p.1 = k
    · simp [summaryLookup, h]
    · simp [summaryLookup, h, ih]

theorem summaryLookup_map_keep (k a : String) (h : a ≠ k) (m : List (String × Nat)) :
    summaryLookup (m.map (fun p => if p.1 = k then (p.1, p.2 + 1) else p)) a
      = summaryLookup m a := by
  induction m with
  | nil => rfl
  | cons p m ih =>
    simp only [List.map_cons, summaryLookup]
    by_cases hp : p.1 = k
    · rw [if_pos hp]
      have hpa : ¬p.1 = a := fun he => h (by rw [← he, hp])
      simp [hpa, ih]
    · rw [if_neg hp]
      by_cases hpa : p.1 = a
      · simp [hpa]
      · simp [hpa, ih]

theorem summaryLookup_none_of_no_key (k : String) (m : List (String × Nat))
    (h : m.any (fun p => decide (p.1 = k)) = false) : summaryLookup m k = none := by
  induction m with
  | nil => rfl
  | cons p m ih =>
    simp only [List.any_cons, Bool.or_eq_false_iff, decide_eq_false_iff_not] at h
    simp [summaryLookup, h.1, ih (by simpa using h.2)]

theorem summaryLookup_some_of_any (k : String) (m : List (String × Nat))
    (h : m.any (fun p => decide (p.1 = k)) = true) : ∃ v, summaryLookup m k = some v := by
  induction m with
  | nil => exact absurd h (by simp)
  | cons p m ih =>
    by_cases hp : p.1 = k
    · exact ⟨p.2, by simp [summaryLookup, hp]⟩
    · have h2 : m.any (fun p => decide (p.1 = k)) = true := by
        simp only [List.any_cons, Bool.or_eq_true, decide_eq_true_eq] at h
        rcases h with h | h
        · exact absurd h hp
        · simpa using h
      obtain ⟨v, hv⟩ := ih h2
      exact ⟨v, by simp [summaryLookup, hp, hv]⟩

theorem summaryLookup_bump_self (k : String) (m : List (String × Nat)) :
    summaryLookup (bumpSummary m k) k = some ((summaryLookup m k).getD 0 + 1) := by
  unfold bumpSummary
  cases hany : m.any (fun p => decide (p.1 = k))
  · rw [if_neg (by simp)]
    have hnone := summaryLookup_none_of_no_key k m hany
    rw [summaryLookup_append, hnone]
    simp [summaryLookup]
  · rw [if_pos rfl]
    obtain ⟨v, hv⟩ := summaryLookup_some_of_any k m hany
    rw [summaryLookup_map_inc, hv]
    simp [hv]

theorem summaryLookup_bump_ne (k a : String) (h : a ≠ k) (m : List (String × Nat)) :
    summaryLookup (bumpSummary m k) a = summaryLookup m a := by
  unfold bumpSummary
  cases hany : m.any (fun p => decide (p.1 = k))
  · rw [if_neg (by simp)]
    rw [summaryLookup_append]
    cases hm : summaryLookup m a
    · simp [summaryLookup, Ne.symm h]
    · rfl
  · rw [if_pos rfl]
    exact summaryLookup_map_keep k a h m

theorem summaryLookup_fold_bump (a : String) (l : List String) :
    ∀ (m : List (String × Nat)),
    ((summaryLookup (l.foldl (fun s addr => bumpSummary s (jsToLower addr)) m) a).getD 0
      = (summaryLookup m a).getD 0 + occList l a)
  ∧ ((summaryLookup (l.foldl (fun s addr => bumpSummary s (jsToLower addr)) m) a).isSome
      = ((summaryLookup m a).isSome || l.any (fun s => jsToLower s = a))) := by
  induction l with
  | nil => intro m; simp [occList]
  | cons s l ih =>
    intro m
    rw [List.foldl_cons]
    rcases ih (bumpSummary m (jsToLower s)) with ⟨ihd, ihs⟩
    by_cases h : jsToLower s = a
    · subst h
      have h1 := summaryLookup_bump_self (jsToLower s) m
      constructor
      · rw [ihd, h1]
        have hocc : occList (s :: l) (jsToLower s) = occList l (jsToLower s) + 1 := by
          simp [occList, List.countP_cons]
        rw [hocc]
        simp only [Option.getD_some]
        omega
      · rw [ihs, h1]
        simp
    · have h1 := summaryLookup_bump_ne (jsToLower s) a (Ne.symm h) m
      constructor
      · rw [ihd, h1]
        have hocc : occList (s :: l) a = occList l a := by
          simp [occList, List.countP_cons, h]
        rw [hocc]
      · rw [ihs, h1]
        simp [List.any_cons, h]

theorem summaryLookup_txSummary (a : String) (tx : QueuedSafeTransaction)
    (m : List (String × Nat)) :
    ((summaryLookup (txSummary m tx) a).getD 0 = (summaryLookup m a).getD 0 + occTx tx a)
  ∧ ((summaryLookup (txSummary m tx) a).isSome
      = ((summaryLookup m a).isSome
          || (tx.missingSigners.getD []).any (fun s => jsToLower s = a))) := by
  unfold txSummary occTx
  cases hms : tx.missingSigners with
  | none => simp [occList]
  | some ms => simpa using summaryLookup_fold_bump a ms m

theorem summaryLookup_txsFold (a : String) (txs : List QueuedSafeTransaction) :
    ∀ (m : List (String × Nat)),
    ((summaryLookup (txs.foldl txSummary m) a).getD 0
      = (summaryLookup m a).getD 0 + (txs.map (fun tx => occTx tx a)).sum)
  ∧ ((summaryLookup (txs.foldl txSummary m) a).isSome
      = ((summaryLookup m a).isSome
          || txs.any (fun tx =>
              (tx.missingSigners.getD []).any (fun s => jsToLower s = a)))) := by
  induction txs with
  | nil => intro m; simp
  | cons tx txs ih =>
    intro m
    rw [List.foldl_cons]
    rcases ih (txSummary m tx) with ⟨ihd, ihs⟩
    rcases summaryLookup_txSummary a tx m with ⟨hd, hs⟩
    constructor
    · rw [ihd, hd, List.map_cons, List.sum_cons]
      omega
    · rw [ihs, hs, List.any_cons, Bool.or_assoc]

theorem summaryLookup_dataFold (a : String) (data : List QueuedTransactionData) :
    ∀ (m : List (String × Nat)),
    ((summaryLookup (data.foldl (fun m d => d.transactions.foldl txSummary m) m) a).getD 0
      = (summaryLookup m a).getD 0 + occCountMissing data a)
  ∧ ((summaryLookup (data.foldl (fun m d => d.transactions.foldl txSummary m) m) a).isSome
      = ((summaryLookup m a).isSome
          || data.any (fun d => d.transactions.any (fun tx =>
              (tx.missingSigners.getD []).any (fun s => jsToLower s = a))))) := by
  induction data with
  | nil => intro m; simp [occCountMissing]
  | cons d data ih =>
    intro m
    rw [List.foldl_cons]
    rcases ih (d.transactions.foldl txSummary m) with ⟨ihd, ihs⟩
    rcases summaryLookup_txsFold a d.transactions m with ⟨hd, hs⟩
    constructor
    · rw [ihd, hd]
      have hocc : occCountMissing (d :: data) a
          = (d.transactions.map (fun tx => occTx tx a)).sum + occCountMissing data a := by
        simp [occCountMissing, List.sum_cons]
      rw [hocc]
      omega
    · rw [ihs, hs, List.any_cons, Bool.or_assoc]

/-- The signer summary component of formatTransactionData is the nested
fold of txSummary over the aggregated data. -/
theorem formatTransactionData_summary (data : List QueuedTransactionData)
    (signers : List SignerInfo) (options : FormatOptions) :
    (formatTransactionData data signers options).2
      = data.foldl (fun m d => d.transactions.foldl txSummary m) [] := by
  suffices h : ∀ (l : List QueuedTransactionData) (acc : List String × List (String × Nat)),
      (l.foldl (fun acc d =>
        (acc.1 ++ d.transactions.map (fun tx =>
            formatTransactionMessage tx d.chain
              (match d.safeInfo with | some info => info.owners | none => [])
              signers options) ++ ["🔗 Safe URL: " ++ d.safeUrl ++ "\n"],
         d.transactions.foldl txSummary acc.2)) acc).2
        = l.foldl (fun m d => d.transactions.foldl txSummary m) acc.2 by
    exact h data ([], [])
  intro l
  induction l with
  | nil => intro acc; rfl
  | cons d l ih =>
    intro acc
    rw [List.foldl_cons, List.foldl_cons]
    exact ih _

/-- A list has an element satisfying a predicate exactly when the sum of
a weight that is positive on exactly those elements is positive. -/
theorem any_iff_sum_pos {α : Type} (p : α → Bool) (f : α → Nat)
    (hp : ∀ x, p x = true ↔ 0 < f x) :
    ∀ l : List α, (l.any p = true ↔ 0 < (l.map f).sum) := by
  intro l
  induction l with
  | nil => simp
  | cons x l ih =>
    simp only [List.any_cons, List.map_cons, List.sum_cons, Bool.or_eq_true, ih, hp]
    omega

theorem anyData_iff_occ_pos (a : String) (data : List QueuedTransactionData) :
    (data.any (fun d => d.transactions.any (fun tx =>
        (tx.missingSigners.getD []).any (fun s => jsToLower s = a))) = true)
      ↔ 0 < occCountMissing data a := by
  refine any_iff_sum_pos _ _ ?_ data
  intro d
  refine any_iff_sum_pos _ _ ?_ d.transactions
  intro tx
  rw [occTx, occList, List.any_eq_true, List.countP_pos_iff]

/-- C3 counterexample: a single transaction listing the same missing
signer twice in different casings gives the normalized address a summary
count of 2, while the number of transactions whose missingSigners contains
that address is 1, refuting the claim as stated. -/
theorem c3_counterexample :
    summaryLookup (formatTransactionData D0 [] emptyOptions).2 "0xa" = some 2
  ∧ txCountMissing D0 "0xa" = 1 := by
  constructor <;> decide

/-- C3 amended: for every case-normalized address, the signer summary
stores the total number of occurrences of that address (case-insensitive)
across the missingSigners lists of all transactions of all wallets, and
it has a key for the address exactly when that count is positive, so it
contains no other keys; the count equals the number of transactions
containing the address whenever no transaction lists an address twice. -/
theorem c3_signer_summary_counts_occurrences (data : List QueuedTransactionData)
    (signers : List SignerInfo) (options : FormatOptions) (a : String) :
    ((summaryLookup (formatTransactionData data signers options).2 a).getD 0
        = occCountMissing data a)
  ∧ ((summaryLookup (formatTransactionData data signers options).2 a).isSome
        ↔ 0 < occCountMissing data a) := by
  rw [formatTransactionData_summary]
  rcases summaryLookup_dataFold a data [] with ⟨hd, hs⟩
  constructor
  · rw [hd]
    simp [summaryLookup]
  · rw [hs]
    have hnil : (summaryLookup [] a).isSome = false := rfl
    rw [hnil, Bool.false_or]
    exact anyData_iff_occ_pos a data
